import Mathlib

/-!
Shallow embedding of the extraction pipeline of `src/mined.py`
(financial-data-extractor).

Conventions of the embedding:
* Python strings are Lean `String`; character-level work happens on `List Char`.
  Case folding and character classes are modelled at ASCII precision, which is
  exact for every literal the source manipulates (dictionary terms, markers,
  regex classes are all ASCII).
* A pdfplumber table cell is `Option String` (`None` or a string); Python
  truthiness of a cell is `cellTruthy`.
* Python `float` values are modelled as exact rationals (`ℚ`); `float(s)` is
  `pyFloat?`, covering sign, decimal point and exponent forms, and returning
  `none` where Python raises `ValueError`.
* Fallible Python code (an uncaught `ValueError` from `float`) is modelled in
  `Except String`.
* Python dicts with string keys are insertion-ordered association lists
  (`PyDict`) with unique keys; `d[k] = v` is `dictSet`, `d.update(e)` is
  `dictUpdate`, `any(d.values())` is `pyAny (dictValues d)`.
* The Gemini network call is an oracle input: `extract_fin_data` receives the
  parsed LLM response (`Option AiData`) as a parameter, `none` standing for an
  unparseable / absent response (`use_gemini_extraction` returning `None`).
-/

namespace Mined

/-- ASCII whitespace, the characters Python `str.strip` removes (the model is
ASCII-precise; Unicode-only whitespace is not modelled). -/
def isSpace (c : Char) : Bool :=
  c == ' ' || c == '\t' || c == '\n' || c == '\r' || c == '\x0b' || c == '\x0c'

/-- Word characters of the `re` module, ASCII fragment: `[A-Za-z0-9_]`. -/
def isWordChar (c : Char) : Bool := c.isAlphanum || c == '_'

def stripList (cs : List Char) : List Char :=
  ((cs.dropWhile isSpace).reverse.dropWhile isSpace).reverse

/-- Python `str.strip()`. -/
def pyStrip (s : String) : String := String.mk (stripList s.toList)

/-- Python `str.lower()` at ASCII precision. -/
def lowerList (cs : List Char) : List Char := cs.map Char.toLower

/-- `a` occurs as a contiguous subsequence of `b` (starting at some position). -/
def containsSeq (a : List Char) : List Char → Bool
  | [] => a.isEmpty
  | c :: rest => a.isPrefixOf (c :: rest) || containsSeq a rest

/-- Python `a in b` on strings: substring containment. -/
def strIn (a b : String) : Bool := containsSeq a.toList b.toList

/-- `a.lower() in b.lower()`: case-insensitive substring containment. -/
def strInCI (a b : String) : Bool := containsSeq (lowerList a.toList) (lowerList b.toList)

/-- A pdfplumber table cell: `None` or a string. -/
abbrev Cell := Option String

abbrev Row := List Cell

abbrev Table := List Row

/-- Python truthiness of a cell: `None` and `""` are falsy. -/
def cellTruthy : Cell → Bool
  | none => false
  | some s => s != ""

def cellStr : Cell → String
  | none => ""
  | some s => s

/-- `s.replace(",", "")`: removing every comma from a string is the same as
filtering the comma characters out (the pattern is a single character, so no
overlap subtleties arise). -/
def removeCommas (s : String) : String :=
  String.mk (s.toList.filter (fun c => c != ','))

/-- The values that can appear in the financial-data dicts: `None`, a number
(Python float, modelled exactly as a rational) or a string. -/
inductive PyVal where
  | vnone : PyVal
  | vnum : ℚ → PyVal
  | vstr : String → PyVal
deriving DecidableEq, Repr

/-- Python truthiness: `None`, `0.0` and `""` are falsy. -/
def PyVal.truthy : PyVal → Bool
  | .vnone => false
  | .vnum q => q != 0
  | .vstr s => s != ""

/-- Insertion-ordered string-keyed dict, as Python dicts since 3.7. -/
abbrev PyDict := List (String × PyVal)

/-- `d.get(k)` / `d[k]`: value of the first (unique) entry with key `k`. -/
def dictGet (d : PyDict) (k : String) : Option PyVal :=
  (d.find? (fun p => p.1 == k)).map Prod.snd

/-- `d[k] = v`: replace in place if the key exists, else append. -/
def dictSet (d : PyDict) (k : String) (v : PyVal) : PyDict :=
  if d.any (fun p => p.1 == k) then
    d.map (fun p => if p.1 == k then (k, v) else p)
  else d ++ [(k, v)]

/-- `d.update(e)`: set every entry of `e` into `d`, in order. -/
def dictUpdate (d e : PyDict) : PyDict :=
  e.foldl (fun acc p => dictSet acc p.1 p.2) d

def dictValues (d : PyDict) : List PyVal := d.map Prod.snd

/-- `any(vs)` for a list of Python values. -/
def pyAny (vs : List PyVal) : Bool := vs.any PyVal.truthy

/-- Digit run to a natural number. -/
def natOfDigits (cs : List Char) : Nat :=
  cs.foldl (fun a c => a * 10 + (c.toNat - 48)) 0

/-- Python `float(s)` (`src/mined.py` feeds it table cells with commas already
removed): optional surrounding whitespace, optional sign, digits with an
optional decimal point (at least one digit overall), optional exponent.
Returns `none` where Python raises `ValueError`.  The special forms
`inf` / `nan` / digit underscores are not modelled; no source input uses them,
and for the modelled claims they would behave like any other parse failure. -/
def pyFloat? (s : String) : Option ℚ :=
  let cs := stripList s.toList
  let sgnAndRest : Int × List Char :=
    match cs with
    | '-' :: rest => (-1, rest)
    | '+' :: rest => (1, rest)
    | _ => (1, cs)
  let cs1 := sgnAndRest.2
  let intPart := cs1.takeWhile Char.isDigit
  let rest1 := cs1.drop intPart.length
  let fracAndRest : List Char × List Char :=
    match rest1 with
    | '.' :: r => (r.takeWhile Char.isDigit, r.drop (r.takeWhile Char.isDigit).length)
    | _ => ([], rest1)
  let fracPart := fracAndRest.1
  let rest2 := fracAndRest.2
  let expAndRest : Option (Int × List Char) :=
    match rest2 with
    | 'e' :: r =>
      let esgnAndRest : Int × List Char :=
        match r with
        | '-' :: rr => (-1, rr)
        | '+' :: rr => (1, rr)
        | _ => (1, r)
      let ed := esgnAndRest.2.takeWhile Char.isDigit
      if ed.isEmpty then none
      else some (esgnAndRest.1 * (natOfDigits ed : Int), esgnAndRest.2.drop ed.length)
    | 'E' :: r =>
      let esgnAndRest : Int × List Char :=
        match r with
        | '-' :: rr => (-1, rr)
        | '+' :: rr => (1, rr)
        | _ => (1, r)
      let ed := esgnAndRest.2.takeWhile Char.isDigit
      if ed.isEmpty then none
      else some (esgnAndRest.1 * (natOfDigits ed : Int), esgnAndRest.2.drop ed.length)
    | _ => some (0, rest2)
  match expAndRest with
  | none => none
  | some (e, rest3) =>
    if (intPart.isEmpty && fracPart.isEmpty) || !rest3.isEmpty then none
    else
      -- the value sign * (int.frac) * 10^e as one exact fraction
      -- (mantissa over a power of ten), normalized by the smart constructor
      let mant : Int := sgnAndRest.1 * (natOfDigits (intPart ++ fracPart) : Int)
      some (if 0 ≤ e then mkRat (mant * ((10 ^ e.toNat : Nat) : Int)) (10 ^ fracPart.length)
            else mkRat mant (10 ^ fracPart.length * 10 ^ (-e).toNat))

/-! Financial term dictionaries from `src/mined.py` lines 18-32, in source
(insertion) order, with their priority values. -/

def RT : List (String × Nat) :=
  [("revenue from operations", 1), ("Total Revenue", 2), ("Turnover", 3), ("Net Sales", 4),
   ("Gross Revenue", 5), ("Operating Revenue", 6), ("Revenues", 7), ("Receipts", 8),
   ("Income from Operations", 9), ("Business Income", 10), ("Gross Sales", 11)]

def OPT : List (String × Nat) :=
  [("Operating Profit", 1), ("EBIT", 2), ("Earnings Before Interest and Tax", 3),
   ("Profit Before Tax", 4), ("PBIT", 5), ("Operating Income", 6), ("Operating Earnings", 7),
   ("Core Earnings", 8), ("NOP", 9), ("NOPAT", 10), ("Operating Margin", 11),
   ("Pre-Tax Operating Profit", 12)]

def NPT : List (String × Nat) :=
  [("Net Profit", 1), ("Net Income", 2), ("Profit After Tax", 3), ("PAT", 4),
   ("Earnings After Tax", 5), ("Final Profit", 6), ("Net Earnings", 7),
   ("Total Comprehensive Income", 8), ("Post-Tax Profit", 9)]

/-- Python `min(l, key=lambda x: x[1])`: first element attaining the minimal
priority (replacement only on strict decrease), `none` on an empty list. -/
def minByPriority : List (String × Nat) → Option (String × Nat)
  | [] => none
  | x :: xs => some (xs.foldl (fun best y => if y.2 < best.2 then y else best) x)

/-- `select_highest_priority` of `src/mined.py` lines 110-114: among the
dictionary terms contained case-insensitively in the row text, the one with
the lowest priority; `none` if the row text is `None` or nothing matches. -/
def select_highest_priority (term_dict : List (String × Nat)) (row_text : Option String) :
    Option String :=
  match row_text with
  | none => none
  | some t => (minByPriority (term_dict.filter (fun p => strInCI p.1 t))).map Prod.fst

/-! ### Period resolver: `extract_dates_from_text`, `src/mined.py` lines 34-61 -/

/-- A parsed `datetime` date; ordering is lexicographic on (year, month, day),
as for Python `datetime` values. -/
structure Date where
  year : Nat
  month : Nat
  day : Nat
deriving DecidableEq

def isSep (c : Char) : Bool := c == '/' || c == '-'

/-- Exactly `n` leading digits, returning them and the rest. -/
def exactDigits : Nat → List Char → Option (List Char × List Char)
  | 0, cs => some ([], cs)
  | _ + 1, [] => none
  | n + 1, c :: cs =>
    if c.isDigit then (exactDigits n cs).map (fun p => (c :: p.1, p.2)) else none

/-- First alternative (in order) for which `f` succeeds; the backtracking
order of a regex alternation or bounded quantifier. -/
def firstSome {α β : Type} (f : α → Option β) : List α → Option β
  | [] => none
  | a :: as =>
    match f a with
    | some b => some b
    | none => firstSome f as

/-- Word-boundary test for the position just after a match. -/
def boundaryAfter (cs : List Char) : Bool :=
  match cs with
  | [] => true
  | c :: _ => !isWordChar c

/-- One attempt of the date regex `\d{1,2} sep \d{1,2} sep \d{2,4} \b` (with
`sep` the class of `/` and `-`) at the
start of `cs` (the `\b` before the match is checked by the caller).  Greedy
quantifiers with backtracking: 2 then 1 digits for day and month, 4 then 3
then 2 for the year.  Returns the matched characters and the rest. -/
def tryDateAt (cs : List Char) : Option (List Char × List Char) :=
  firstSome (fun d1 =>
    match exactDigits d1 cs with
    | none => none
    | some (g1, r1) =>
      match r1 with
      | [] => none
      | s1 :: r1t =>
        if isSep s1 then
          firstSome (fun d2 =>
            match exactDigits d2 r1t with
            | none => none
            | some (g2, r2) =>
              match r2 with
              | [] => none
              | s2 :: r2t =>
                if isSep s2 then
                  firstSome (fun d3 =>
                    match exactDigits d3 r2t with
                    | none => none
                    | some (g3, r3) =>
                      if boundaryAfter r3 then
                        some (g1 ++ s1 :: g2 ++ s2 :: g3, r3)
                      else none) [4, 3, 2]
                else none) [2, 1]
        else none) [2, 1]

/-- `re.findall` of the date pattern: scan left to right; at every position
with a word boundary before it, attempt the pattern; on success record the
match and continue after it (matches never overlap), else advance one
character.  `bOK` says whether a word boundary holds before the current
position (start of text, or previous character not a word character; the
pattern itself starts with a digit).  The characters a recorded match
consumed beyond its first are skipped one at a time through the `skip`
counter, keeping the recursion structural; while `skip > 0` no pattern
attempt is made, exactly as `findall` resumes after the match. -/
def findDatesAux : List Char → Nat → Bool → List String → List String
  | [], _, _, acc => acc.reverse
  | x :: rest, skip + 1, _, acc => findDatesAux rest skip (!isWordChar x) acc
  | c :: rest, 0, bOK, acc =>
    match (if bOK then tryDateAt (c :: rest) else none) with
    | some m => findDatesAux rest (m.1.length - 1) (!isWordChar c) (String.mk m.1 :: acc)
    | none => findDatesAux rest 0 (!isWordChar c) acc

def findall_dates (s : String) : List String := findDatesAux s.toList 0 true []

def isLeap (y : Nat) : Bool := y % 4 == 0 && (y % 100 != 0 || y % 400 == 0)

def daysInMonth (m y : Nat) : Nat :=
  if m == 2 then (if isLeap y then 29 else 28)
  else if m == 4 || m == 6 || m == 9 || m == 11 then 30
  else 31

/-- CPython `strptime` directive `%d`, regex `3[01]|[12]\d|0[1-9]|[1-9]`,
applied to a maximal digit run (the following separator or end forces full
consumption of the run). -/
def dayFieldOK (cs : List Char) : Bool :=
  let v := natOfDigits cs
  (cs.length == 2 &&
    (decide (10 ≤ v ∧ v ≤ 31) || (cs.headD '0' == '0' && decide (1 ≤ v ∧ v ≤ 9)))) ||
  (cs.length == 1 && decide (1 ≤ v ∧ v ≤ 9))

/-- CPython `strptime` directive `%m`, regex `1[0-2]|0[1-9]|[1-9]`. -/
def monthFieldOK (cs : List Char) : Bool :=
  let v := natOfDigits cs
  (cs.length == 2 && (decide (10 ≤ v ∧ v ≤ 12) || (cs.headD '0' == '0' && decide (1 ≤ v ∧ v ≤ 9)))) ||
  (cs.length == 1 && decide (1 ≤ v ∧ v ≤ 9))

/-- `datetime.strptime(s, fmt)` for the four formats the source uses:
`"%d" sep "%m" sep year`, where `sep` is `-` or `/` and the year directive is
`%Y` (exactly four digits) when `twoDigitYear` is false, `%y` (exactly two
digits, 00-68 ↦ 2000-2068, 69-99 ↦ 1969-1999) when true.  The whole string
must be consumed, and the `datetime` constructor validates the day against
the month length (leap years included) and the year against `MINYEAR = 1`.
Returns `none` where Python raises `ValueError`. -/
def strptimeWith (sep : Char) (twoDigitYear : Bool) (s : String) : Option Date :=
  let cs := s.toList
  let d1 := cs.takeWhile Char.isDigit
  let r1 := cs.drop d1.length
  match r1 with
  | [] => none
  | c1 :: r1t =>
    if c1 == sep then
      let d2 := r1t.takeWhile Char.isDigit
      let r2 := r1t.drop d2.length
      match r2 with
      | [] => none
      | c2 :: r2t =>
        if c2 == sep then
          let d3 := r2t.takeWhile Char.isDigit
          let r3 := r2t.drop d3.length
          if r3.isEmpty && dayFieldOK d1 && monthFieldOK d2 then
            let day := natOfDigits d1
            let mon := natOfDigits d2
            if twoDigitYear then
              if d3.length == 2 then
                let yy := natOfDigits d3
                let y := if yy ≤ 68 then 2000 + yy else 1900 + yy
                if decide (day ≤ daysInMonth mon y) then some ⟨y, mon, day⟩ else none
              else none
            else
              if d3.length == 4 then
                let y := natOfDigits d3
                if decide (1 ≤ y) && decide (day ≤ daysInMonth mon y) then
                  some ⟨y, mon, day⟩
                else none
              else none
          else none
        else none
    else none

/-- Lines 40-46: try `"%d-%m-%Y"`, `"%d/%m/%Y"`, `"%d-%m-%y"`, `"%d/%m/%y"`
in order, keeping the first success. -/
def tryFormats (s : String) : Option Date :=
  firstSome (fun f => strptimeWith f.1 f.2 s)
    [('-', false), ('/', false), ('-', true), ('/', true)]

/-- The `formatted_dates` list of lines 38-46: every regex match that parses
under some accepted format, unparsable candidates dropped. -/
def parsedDates (text : String) : List Date :=
  (findall_dates text).filterMap tryFormats

/-- `datetime` order: `a ≤ b` lexicographically on (year, month, day). -/
def dateLe (a b : Date) : Bool :=
  decide (a.year < b.year ∨ (a.year = b.year ∧
    (a.month < b.month ∨ (a.month = b.month ∧ a.day ≤ b.day))))

/-- Stable descending insertion: `x` goes before the first strictly smaller
element, hence after any element equal to it (Python `sorted` with
`reverse=True` keeps equal elements in original order). -/
def insertDesc (x : Date) : List Date → List Date
  | [] => [x]
  | y :: ys => if !dateLe x y then x :: y :: ys else y :: insertDesc x ys

/-- `sorted(formatted_dates, reverse=True)`: stable descending sort. -/
def sortDescDates (l : List Date) : List Date :=
  l.foldl (fun acc x => insertDesc x acc) []

/-- `f"Q{(month - 1) // 3 + 1} {year}"`. -/
def quarterLabel (d : Date) : String :=
  "Q" ++ toString ((d.month - 1) / 3 + 1) ++ " " ++ toString d.year

/-- `extract_dates_from_text`, lines 34-61: regex-scan the text for date
candidates, parse each against the format list, sort descending, and label
the first and (if present) second entries.  The empty-sorted branch mirrors
the `if not formatted_dates` early return (sorting preserves emptiness). -/
def extract_dates_from_text (text : String) : Option String × Option String :=
  match sortDescDates (parsedDates text) with
  | [] => (none, none)
  | [a] => (some (quarterLabel a), none)
  | a :: b :: _ => (some (quarterLabel a), some (quarterLabel b))

/-! ### Table locator: `extract_table_or_text`, `src/mined.py` lines 63-77 -/

/-- The outcome of `extract_table_or_text` as the caller sees it: a table or
raw OCR text (a Python value can be a list or a string, never both). -/
inductive TableOrText where
  | tbl : Table → TableOrText
  | txt : String → TableOrText
deriving DecidableEq

/-- Line 70: `any("Particulars" in str(cell) for cell in table[0] if cell)` —
some truthy cell of the header row contains `"Particulars"` (case-sensitive).
`table[0]` of an empty table would raise `IndexError` in Python; pdfplumber
tables always carry at least one row, and the model treats an empty table as
not matching. -/
def tableMatches (t : Table) : Bool :=
  match t with
  | [] => false
  | h :: _ => h.any (fun c => cellTruthy c && strIn "Particulars" (cellStr c))

/-- One page of the PDF, as the pipeline observes it: `text` is
`page.extract_text() or ""`, `tables` is `page.extract_tables()`, and
`ocrText` is the OCR output `extract_text_from_image` would produce for the
page (an external CPU-bound call, modelled as data carried by the page). -/
structure Page where
  text : String
  tables : List Table
  ocrText : String
deriving DecidableEq

structure Doc where
  pages : List Page
deriving DecidableEq

/-- The body of the page loop, lines 66-75: return the first table of the
page whose header matches, else the OCR text of the same page when non-blank,
else `None`. -/
def pageResult (p : Page) : Option TableOrText :=
  match p.tables.find? tableMatches with
  | some t => some (.tbl t)
  | none => if pyStrip p.ocrText != "" then some (.txt p.ocrText) else none

/-- `extract_table_or_text`, lines 63-77.  Every branch of the loop body
returns, so only the first page is ever examined; the trailing
`return None` of line 77 is reached only when the PDF has no pages. -/
def extract_table_or_text (doc : Doc) : Option TableOrText :=
  match doc.pages with
  | [] => none
  | p :: _ => pageResult p

/-! ### Row classifier and value extractor: `extract_financial_values`,
`src/mined.py` lines 88-134 -/

/-- The `extracted_data` value: two dicts keyed by the three metric names. -/
structure FinVals where
  currentQuarter : PyDict
  annualData : PyDict
deriving DecidableEq, Repr

def emptyTriple : PyDict :=
  [("Revenue", PyVal.vnone), ("Operating Profit", PyVal.vnone), ("Net Profit", PyVal.vnone)]

/-- The initial `extracted_data` of lines 90-93. -/
def allNone : FinVals := ⟨emptyTriple, emptyTriple⟩

/-- Line 102: the cell is truthy and contains `"Particular"` (case-sensitive). -/
def isPartCell (c : Cell) : Bool := cellTruthy c && strIn "Particular" (cellStr c)

/-- Line 104: the cell is truthy and contains `"year ended"` case-insensitively. -/
def isYearCell (c : Cell) : Bool := cellTruthy c && strInCI "year ended" (cellStr c)

/-- The header scan of lines 101-105: the running pair
(current-quarter index, annual index), each overwritten whenever a further
truthy cell contains `"Particular"` / case-insensitive `"year ended"`. -/
def findColIndicesAux : List Cell → Nat → Option Nat × Option Nat → Option Nat × Option Nat
  | [], _, acc => acc
  | c :: rest, i, acc =>
    let cq := if isPartCell c then some (i + 1) else acc.1
    let an := if isYearCell c then some i else acc.2
    findColIndicesAux rest (i + 1) (cq, an)

def findColIndices (header : Row) : Option Nat × Option Nat :=
  findColIndicesAux header 0 (none, none)

/-- One targeted cell, lines 125-132:
`float(row[idx].replace(",", "")) if idx < len(row) and row[idx] else None`.
Out-of-range or falsy cells give `None`; otherwise the comma-stripped cell
must parse as a float, and a parse failure is an uncaught `ValueError`. -/
def parseCell (row : Row) (idx : Nat) : Except String PyVal :=
  match row.get? idx with
  | none => .ok .vnone
  | some c =>
    if cellTruthy c then
      match pyFloat? (removeCommas (cellStr c)) with
      | some q => .ok (.vnum q)
      | none => .error "ValueError: could not convert string to float"
    else .ok .vnone

/-- One `if ..._match:` block: when the dictionary matched, assign the
current-quarter cell and then the annual cell of this row to `key` in the two
dicts (each assignment may raise). -/
def applyMatch (cqi ai : Nat) (key : String) (matched : Option String) (row : Row)
    (acc : FinVals) : Except String FinVals :=
  match matched with
  | none => .ok acc
  | some _ => do
    let v ← parseCell row cqi
    let acc1 : FinVals := ⟨dictSet acc.currentQuarter key v, acc.annualData⟩
    let va ← parseCell row ai
    pure ⟨acc1.currentQuarter, dictSet acc1.annualData key va⟩

/-- The body of the row loop, lines 116-132.  Rows that are empty or whose
first cell is `None` are skipped; otherwise the first cell is matched against
the three dictionaries independently and each match assigns both targeted
cells. -/
def processRow (cqi ai : Nat) (acc : FinVals) (row : Row) : Except String FinVals :=
  match row with
  | [] => .ok acc
  | none :: _ => .ok acc
  | some s0 :: _ => do
    let rm := select_highest_priority RT (some s0)
    let om := select_highest_priority OPT (some s0)
    let nm := select_highest_priority NPT (some s0)
    let a1 ← applyMatch cqi ai "Revenue" rm row acc
    let a2 ← applyMatch cqi ai "Operating Profit" om row a1
    applyMatch cqi ai "Net Profit" nm row a2

/-- `extract_financial_values`, lines 88-134, on the value
`extract_table_or_text` produced.  A raw-text argument is truthy when
non-empty, but then `header = table[0]` is its first character and a
one-character header can contain neither marker, so the function returns the
all-`None` record exactly as for a falsy argument.  The row loop of line 116
runs over the whole table, header row included. -/
def extract_financial_values (arg : Option TableOrText) : Except String FinVals :=
  match arg with
  | none => .ok allNone
  | some (.txt _) => .ok allNone
  | some (.tbl t) =>
    match t with
    | [] => .ok allNone
    | header :: _ =>
      match findColIndices header with
      | (some cqi, some ai) => t.foldlM (processRow cqi ai) allNone
      | _ => .ok allNone

/-! ### Unit, company and year detectors, `src/mined.py` lines 178-189, 220 -/

/-- `detect_fin_unit`, lines 178-184: first of the fixed unit names contained
case-insensitively in the text, else `"Unknown"`. -/
def detect_fin_unit (text : String) : String :=
  match ["Crores", "Lakhs", "Millions", "Billions"].find? (fun u => strInCI u text) with
  | some u => u
  | none => "Unknown"

/-- Characters of the regex class `[:\-\s]` (the preceding `\s*` is absorbed
by this class, which contains all of `\s`). -/
def sepClass (c : Char) : Bool := c == ':' || c == '-' || isSpace c

/-- Characters of the capture class `[A-Za-z0-9&.,\s]`. -/
def capClass (c : Char) : Bool :=
  c.isAlphanum || c == '&' || c == '.' || c == ',' || isSpace c

def companyPhrases : List String := ["Company Name", "Statement of", "Financial Report of"]

/-- Case-insensitive literal alternation at the head of `cs`: the remainder
after the first phrase that matches.  The three phrases start with distinct
letters, so at most one alternative can match at a given position and no
alternation backtracking arises. -/
def matchPhraseAt (cs : List Char) : Option (List Char) :=
  firstSome (fun p =>
    let pc := lowerList p.toList
    if pc.isPrefixOf (lowerList cs) then some (cs.drop pc.length) else none)
    companyPhrases

/-- Backtracking of `[:\-\s]*` against `([A-Za-z0-9&.,\s]+)`: starting from
the maximal separator run (`revRun` is the consumed run, reversed), try the
greedy capture; on failure give one separator character back at a time.  A
returned character only helps when it is whitespace (in both classes). -/
def capBacktrack : List Char → List Char → Option (List Char)
  | revRun, tail =>
    let run := tail.takeWhile capClass
    if !run.isEmpty then some run
    else
      match revRun with
      | [] => none
      | c :: revRest => capBacktrack revRest (c :: tail)

/-- `re.search` scan for the company-name pattern: leftmost position where a
phrase matches and yields a non-empty capture. -/
def companySearch : List Char → Option (List Char)
  | [] => none
  | c :: rest =>
    match matchPhraseAt (c :: rest) with
    | some after =>
      let run := after.takeWhile sepClass
      match capBacktrack run.reverse (after.drop run.length) with
      | some cap => some cap
      | none => companySearch rest
    | none => companySearch rest

/-- `extract_company_name`, lines 186-189: the regex
`(?i)(?:Company Name|Statement of|Financial Report of)\s*[:\-\s]*([A-Za-z0-9&.,\s]+)`
searched over the text; the captured group stripped, else
`"Unknown Company"`. -/
def extract_company_name (text : String) : String :=
  match companySearch text.toList with
  | some cap => String.mk (stripList cap)
  | none => "Unknown Company"

/-- The first `\b\d{4}\b` match: four digits with word boundaries on both
sides.  Returns the four digits. -/
def fourDigitAt (cs : List Char) : Option String :=
  match cs with
  | a :: b :: c :: d :: rest =>
    if a.isDigit && b.isDigit && c.isDigit && d.isDigit && boundaryAfter rest then
      some (String.mk [a, b, c, d])
    else none
  | _ => none

def searchYearAux : List Char → Bool → Option String
  | [], _ => none
  | c :: rest, bOK =>
    match (if bOK then fourDigitAt (c :: rest) else none) with
    | some y => some y
    | none => searchYearAux rest (!isWordChar c)

/-- Line 220: `re.search(r"\b\d{4}\b", text).group()` with `"Unknown Year"`
when absent. -/
def yearOf (text : String) : String :=
  (searchYearAux text.toList true).getD "Unknown Year"

/-! ### Fallback orchestrator: `extract_fin_data`, `src/mined.py`
lines 191-225 -/

/-- The parsed JSON object of a Gemini response, as far as `extract_fin_data`
reads it: the two sub-dicts defaulted to `{}` when missing
(`ai_data.get("Current Quarter", {})` and the `"Annual Data"` analogue), and
the `"Company Name"` entry when that key is present. -/
structure AiData where
  currentQuarter : PyDict
  annualData : PyDict
  companyName : Option PyVal
deriving DecidableEq

/-- Line 211: the fallback condition
`not any(fin_data["Current Quarter"].values())` — no truthy value in the
current-quarter dict (at this point its values are the three financial
fields). -/
def geminiTriggered (fv : FinVals) : Bool := !pyAny (dictValues fv.currentQuarter)

/-- Lines 211-215: when triggered, `dict.update` the two sub-objects of the
LLM result into the local dicts and take the LLM company name if the key was
provided; `ai = none` models `use_gemini_extraction` returning `None`
(`None or {}` makes both updates no-ops and leaves the company name). -/
def mergeAi (fv : FinVals) (companyName : PyVal) (ai : Option AiData) :
    PyDict × PyDict × PyVal :=
  if geminiTriggered fv then
    match ai with
    | none => (fv.currentQuarter, fv.annualData, companyName)
    | some a =>
      (dictUpdate fv.currentQuarter a.currentQuarter,
       dictUpdate fv.annualData a.annualData,
       a.companyName.getD companyName)
  else (fv.currentQuarter, fv.annualData, companyName)

/-- The value `extract_fin_data` returns: the error object
`{"error-status": 404, "message": ...}` or the final `fin_data` dict (the two
period dicts plus the company name entry). -/
structure FinData where
  currentQuarter : PyDict
  annualData : PyDict
  companyName : PyVal
deriving DecidableEq, Repr

inductive FinResult where
  | err : Nat → String → FinResult
  | ok : FinData → FinResult
deriving DecidableEq, Repr

def noDataMsg : String := "No financial data found in the document."

/-- `"".join` of the page texts, line 193-196 (`page.extract_text() or ""` is
the `text` field of the page). -/
def extractedTextOf (doc : Doc) : String :=
  String.join (doc.pages.map Page.text)

/-- `extract_fin_data`, lines 191-225.  The Streamlit session write of line
198 is UI state and the date extraction of line 203 computes values the rest
of the function never reads; both are effect-free for the returned value and
omitted.  `ai` is the parsed LLM response oracle (see `AiData`).  An
uncaught `ValueError` from `extract_financial_values` propagates. -/
def extract_fin_data (doc : Doc) (ai : Option AiData) : Except String FinResult :=
  let extracted_text := extractedTextOf doc
  if pyStrip extracted_text == "" then .ok (.err 404 noDataMsg)
  else
    let fin_unit := detect_fin_unit extracted_text
    match extract_financial_values (extract_table_or_text doc) with
    | .error e => .error e
    | .ok fv =>
      let company0 : PyVal := .vstr (extract_company_name extracted_text)
      let m := mergeAi fv company0 ai
      if !pyAny (dictValues m.1) && !pyAny (dictValues m.2.1) then .ok (.err 404 noDataMsg)
      else
        let ad1 := dictSet m.2.1 "Year" (.vstr (yearOf extracted_text))
        let cq1 := dictSet m.1 "Unit" (.vstr fin_unit)
        let ad2 := dictSet ad1 "Unit" (.vstr fin_unit)
        .ok (.ok ⟨cq1, ad2, m.2.2⟩)

/-! ## Helper lemmas -/

/-- The running minimum of `min(..., key=lambda x: x[1])` is the start value
or a list element, and its priority is a lower bound for all of them. -/
theorem foldlMin_spec (x : String × Nat) (xs : List (String × Nat)) :
    ((xs.foldl (fun best y => if y.2 < best.2 then y else best) x) = x ∨
      (xs.foldl (fun best y => if y.2 < best.2 then y else best) x) ∈ xs) ∧
    (xs.foldl (fun best y => if y.2 < best.2 then y else best) x).2 ≤ x.2 ∧
    ∀ y ∈ xs, (xs.foldl (fun best y => if y.2 < best.2 then y else best) x).2 ≤ y.2 := by
  induction xs generalizing x with
  | nil => simp
  | cons a as ih =>
    simp only [List.foldl_cons, List.mem_cons]
    by_cases h : a.2 < x.2
    · rw [if_pos h]
      rcases ih a with ⟨hmem, hle, hall⟩
      exact ⟨Or.inr (hmem.elim Or.inl Or.inr), le_trans hle (le_of_lt h),
        fun y hy => hy.elim (fun e => e ▸ hle) (hall y)⟩
    · rw [if_neg h]
      rcases ih x with ⟨hmem, hle, hall⟩
      exact ⟨hmem.elim Or.inl (fun e => Or.inr (Or.inr e)), hle,
        fun y hy => hy.elim (fun e => e ▸ le_trans hle (le_of_not_lt h)) (hall y)⟩

theorem minByPriority_spec (l : List (String × Nat)) (x : String × Nat)
    (h : minByPriority l = some x) : x ∈ l ∧ ∀ y ∈ l, x.2 ≤ y.2 := by
  match l with
  | [] => simp [minByPriority] at h
  | a :: as =>
    simp only [minByPriority, Option.some.injEq] at h
    rcases foldlMin_spec a as with ⟨hmem, hle, hall⟩
    rw [h] at hmem hle hall
    exact ⟨hmem.elim (fun e => by simp [e]) (fun e => List.mem_cons_of_mem a e),
      fun y hy => (List.mem_cons.mp hy).elim (fun e => e ▸ hle) (hall y)⟩

theorem minByPriority_none (l : List (String × Nat)) :
    minByPriority l = none ↔ l = [] := by
  cases l <;> simp [minByPriority]

theorem find?_map_set_self (k : String) (v : PyVal) (d : PyDict)
    (h : d.any (fun p => p.1 == k) = true) :
    (d.map (fun p => if p.1 == k then (k, v) else p)).find? (fun p => p.1 == k) =
      some (k, v) := by
  induction d with
  | nil => simp at h
  | cons a as ih =>
    simp only [List.map_cons]
    by_cases h1 : (a.1 == k) = true
    · rw [if_pos h1, @List.find?_cons_of_pos _ (fun p => p.1 == k) (k, v) _ (by simp)]
    · rw [if_neg h1, @List.find?_cons_of_neg _ (fun p => p.1 == k) a _ h1]
      apply ih
      simp only [List.any_cons, Bool.or_eq_true] at h
      exact h.resolve_left h1

theorem find?_map_set_ne (k k' : String) (v : PyVal) (hne : k' ≠ k) (d : PyDict) :
    (d.map (fun p => if p.1 == k then (k, v) else p)).find? (fun p => p.1 == k') =
      d.find? (fun p => p.1 == k') := by
  have hkk' : (k == k') = false := beq_eq_false_iff_ne.mpr fun e => hne e.symm
  induction d with
  | nil => rfl
  | cons a as ih =>
    simp only [List.map_cons]
    by_cases h1 : (a.1 == k) = true
    · have ha1 : a.1 = k := by simpa using h1
      rw [if_pos h1, @List.find?_cons_of_neg _ (fun p => p.1 == k') (k, v) _ (by simp [hkk']),
        @List.find?_cons_of_neg _ (fun p => p.1 == k') a _ (by simp [ha1, hkk'])]
      exact ih
    · rw [if_neg h1]
      by_cases h2 : (a.1 == k') = true
      · rw [@List.find?_cons_of_pos _ (fun p => p.1 == k') a _ h2,
          @List.find?_cons_of_pos _ (fun p => p.1 == k') a _ h2]
      · rw [@List.find?_cons_of_neg _ (fun p => p.1 == k') a _ h2,
          @List.find?_cons_of_neg _ (fun p => p.1 == k') a _ h2]
        exact ih

/-- Setting a key makes it readable: `d[k] = v` then `d[k]` gives `v`. -/
theorem dictGet_dictSet_self (d : PyDict) (k : String) (v : PyVal) :
    dictGet (dictSet d k v) k = some v := by
  unfold dictSet
  by_cases h : d.any (fun p => p.1 == k) = true
  · rw [if_pos h]
    unfold dictGet
    rw [find?_map_set_self k v d h]
    rfl
  · rw [if_neg h]
    unfold dictGet
    rw [List.find?_append]
    have hnone : d.find? (fun p => p.1 == k) = none := by
      rw [List.find?_eq_none]
      intro p hp hpk
      exact h (List.any_eq_true.mpr ⟨p, hp, hpk⟩)
    rw [hnone, @List.find?_cons_of_pos _ (fun p => p.1 == k) (k, v) _ (by simp)]
    rfl

/-- Setting one key leaves every other key unchanged. -/
theorem dictGet_dictSet_ne (d : PyDict) (k k' : String) (v : PyVal)
    (hne : k' ≠ k) : dictGet (dictSet d k v) k' = dictGet d k' := by
  unfold dictSet
  by_cases h : d.any (fun p => p.1 == k) = true
  · rw [if_pos h]
    unfold dictGet
    rw [find?_map_set_ne k k' v hne d]
  · rw [if_neg h]
    unfold dictGet
    rw [List.find?_append]
    have hkk' : (k == k') = false := beq_eq_false_iff_ne.mpr fun e => hne e.symm
    have h2 : List.find? (fun p => p.1 == k') [(k, v)] = none := by
      rw [@List.find?_cons_of_neg _ (fun p => p.1 == k') (k, v) _ (by simp [hkk'])]
      rfl
    rw [h2]
    cases hd : List.find? (fun p => p.1 == k') d <;> rfl

/-- Conditional assignment, for stating what one row does to one key. -/
def setIf (b : Bool) (d : PyDict) (k : String) (v : PyVal) : PyDict :=
  if b then dictSet d k v else d

theorem dictGet_setIf_self (d : PyDict) (k : String) (v : PyVal) :
    dictGet (setIf true d k v) k = some v := dictGet_dictSet_self d k v

theorem dictGet_setIf_ne (b : Bool) (d : PyDict) (k k' : String) (v : PyVal)
    (hne : k' ≠ k) : dictGet (setIf b d k v) k' = dictGet d k' := by
  cases b
  · rfl
  · exact dictGet_dictSet_ne d k k' v hne

instance {ε α : Type} [DecidableEq ε] [DecidableEq α] : DecidableEq (Except ε α) :=
  fun a b =>
    match a, b with
    | .error e, .error f =>
      if h : e = f then isTrue (by rw [h]) else isFalse (fun hh => h (by injection hh))
    | .ok x, .ok y =>
      if h : x = y then isTrue (by rw [h]) else isFalse (fun hh => h (by injection hh))
    | .error _, .ok _ => isFalse (fun hh => Except.noConfusion hh)
    | .ok _, .error _ => isFalse (fun hh => Except.noConfusion hh)

theorem okBind {α β γ : Type} (a : α) (f : α → Except γ β) :
    (Except.ok a >>= f : Except γ β) = f a := rfl

theorem applyMatch_none (cqi ai : Nat) (key : String) (row : Row) (acc : FinVals) :
    applyMatch cqi ai key none row acc = .ok acc := rfl

theorem applyMatch_some (cqi ai : Nat) (key m : String) (row : Row) (acc : FinVals)
    (v va : PyVal) (hv : parseCell row cqi = .ok v) (hva : parseCell row ai = .ok va) :
    applyMatch cqi ai key (some m) row acc =
      .ok ⟨dictSet acc.currentQuarter key v, dictSet acc.annualData key va⟩ := by
  simp only [applyMatch, hv, hva, okBind]
  rfl

/-- The net effect of one matched-or-skipped row on the record: each of the
three keys is assigned the parsed current / annual cell values exactly when
its dictionary matched the first cell, in source order. -/
theorem processRow_eq (cqi ai : Nat) (acc : FinVals) (s0 : String) (rest : Row)
    (v va : PyVal)
    (hv : parseCell (some s0 :: rest) cqi = .ok v)
    (hva : parseCell (some s0 :: rest) ai = .ok va) :
    processRow cqi ai acc (some s0 :: rest) = .ok
      ⟨setIf (select_highest_priority NPT (some s0)).isSome
         (setIf (select_highest_priority OPT (some s0)).isSome
           (setIf (select_highest_priority RT (some s0)).isSome
             acc.currentQuarter "Revenue" v)
           "Operating Profit" v)
         "Net Profit" v,
       setIf (select_highest_priority NPT (some s0)).isSome
         (setIf (select_highest_priority OPT (some s0)).isSome
           (setIf (select_highest_priority RT (some s0)).isSome
             acc.annualData "Revenue" va)
           "Operating Profit" va)
         "Net Profit" va⟩ := by
  unfold processRow
  cases hrm : select_highest_priority RT (some s0) <;>
    cases hom : select_highest_priority OPT (some s0) <;>
      cases hnm : select_highest_priority NPT (some s0) <;>
        simp only [hrm, hom, hnm, applyMatch_none,
          applyMatch_some _ _ _ _ _ _ _ _ hv hva, okBind, Option.isSome_some,
          Option.isSome_none, setIf, if_true, if_false, Bool.false_eq_true]

theorem setIf_true (d : PyDict) (k : String) (v : PyVal) :
    setIf true d k v = dictSet d k v := rfl

theorem errBind {α β γ : Type} (e : γ) (f : α → Except γ β) :
    (Except.error e >>= f : Except γ β) = .error e := rfl

theorem foldlM_singleton {α β : Type} (f : α → β → Except String α) (acc : α) (r : β) :
    List.foldlM f acc [r] = f acc r := by
  cases h : f acc r with
  | error e => rw [List.foldlM_cons, h, errBind]
  | ok b => rw [List.foldlM_cons, h, okBind]; rfl

/-- When the table has valid column indices, the record returned by
`extract_financial_values` is the result of processing the last row from the
accumulated state of all earlier rows. -/
theorem extract_fv_last_row (header : Row) (mid : List Row) (lastRow : Row)
    (cqi ai : Nat) (d : FinVals)
    (hidx : findColIndices header = (some cqi, some ai))
    (hrun : extract_financial_values (some (.tbl (header :: (mid ++ [lastRow])))) = .ok d) :
    ∃ acc, processRow cqi ai acc lastRow = .ok d := by
  have hred : extract_financial_values (some (.tbl (header :: (mid ++ [lastRow])))) =
      (header :: (mid ++ [lastRow])).foldlM (processRow cqi ai) allNone := by
    have h0 : extract_financial_values (some (.tbl (header :: (mid ++ [lastRow])))) =
        (match findColIndices header with
          | (some cqi, some ai) =>
              (header :: (mid ++ [lastRow])).foldlM (processRow cqi ai) allNone
          | _ => .ok allNone) := rfl
    rw [h0, hidx]
  rw [hred] at hrun
  rw [show header :: (mid ++ [lastRow]) = (header :: mid) ++ [lastRow] from rfl,
    List.foldlM_append] at hrun
  cases hacc : (header :: mid).foldlM (processRow cqi ai) allNone with
  | error e =>
    rw [hacc, errBind] at hrun
    exact Except.noConfusion hrun
  | ok acc =>
    rw [hacc, okBind, foldlM_singleton] at hrun
    exact ⟨acc, hrun⟩

theorem parseCell_out_of_range (row : Row) (idx : Nat) (h : row.length ≤ idx) :
    parseCell row idx = .ok .vnone := by
  unfold parseCell
  rw [List.get?_eq_none.mpr h]

theorem parseCell_falsy (row : Row) (idx : Nat) (c : Cell)
    (hget : row.get? idx = some c) (hc : cellTruthy c = false) :
    parseCell row idx = .ok .vnone := by
  unfold parseCell
  rw [hget]
  simp [hc]

theorem parseCell_parses (row : Row) (idx : Nat) (c : Cell) (q : ℚ)
    (hget : row.get? idx = some c) (hc : cellTruthy c = true)
    (hq : pyFloat? (removeCommas (cellStr c)) = some q) :
    parseCell row idx = .ok (.vnum q) := by
  unfold parseCell
  rw [hget]
  simp [hc, hq]

/-! ## Claim theorems -/

/-- Claim C7 (confirmed): a data row whose first cell matches both the
Revenue and the Operating Profit dictionaries populates both fields from
that same row's current-period and annual cells (and likewise the Net Profit
field when that dictionary also matches) — stated for the last data row of
the table, whose assignments are the ones that survive the pass. -/
theorem claim7_multi_dict (header : Row) (mid : List Row) (s0 : String) (rest : Row)
    (cqi ai : Nat) (d : FinVals) (v va : PyVal)
    (hidx : findColIndices header = (some cqi, some ai))
    (hrm : (select_highest_priority RT (some s0)).isSome = true)
    (hom : (select_highest_priority OPT (some s0)).isSome = true)
    (hv : parseCell (some s0 :: rest) cqi = .ok v)
    (hva : parseCell (some s0 :: rest) ai = .ok va)
    (hrun : extract_financial_values
      (some (.tbl (header :: (mid ++ [some s0 :: rest])))) = .ok d) :
    dictGet d.currentQuarter "Revenue" = some v ∧
    dictGet d.currentQuarter "Operating Profit" = some v ∧
    dictGet d.annualData "Revenue" = some va ∧
    dictGet d.annualData "Operating Profit" = some va ∧
    ((select_highest_priority NPT (some s0)).isSome = true →
      dictGet d.currentQuarter "Net Profit" = some v ∧
      dictGet d.annualData "Net Profit" = some va) := by
  obtain ⟨acc, hp⟩ := extract_fv_last_row header mid _ cqi ai d hidx hrun
  rw [processRow_eq cqi ai acc s0 rest v va hv hva, hrm, hom] at hp
  injection hp with hp
  refine ⟨?_, ?_, ?_, ?_, fun hnm => ⟨?_, ?_⟩⟩ <;> rw [← hp] <;> dsimp only
  · rw [dictGet_setIf_ne _ _ _ _ _ (by decide), setIf_true, setIf_true,
      dictGet_dictSet_ne _ _ _ _ (by decide), dictGet_dictSet_self]
  · rw [dictGet_setIf_ne _ _ _ _ _ (by decide), setIf_true, setIf_true,
      dictGet_dictSet_self]
  · rw [dictGet_setIf_ne _ _ _ _ _ (by decide), setIf_true, setIf_true,
      dictGet_dictSet_ne _ _ _ _ (by decide), dictGet_dictSet_self]
  · rw [dictGet_setIf_ne _ _ _ _ _ (by decide), setIf_true, setIf_true,
      dictGet_dictSet_self]
  · rw [hnm, setIf_true, dictGet_dictSet_self]
  · rw [hnm, setIf_true, dictGet_dictSet_self]

/-- Claim C5 (confirmed): for every term dictionary and row-label text,
`select_highest_priority` returns a synonym that is a case-insensitive
substring of the text and whose priority is minimal among all contained
synonyms, and returns nothing exactly when no synonym is contained.  The
selection is a pure function of the dictionary and the text, hence
deterministic. -/
theorem claim5_select_spec (d : List (String × Nat)) (t : String) :
    (∀ term, select_highest_priority d (some t) = some term →
      ∃ p, (term, p) ∈ d ∧ strInCI term t = true ∧
        ∀ q ∈ d, strInCI q.1 t = true → p ≤ q.2) ∧
    (select_highest_priority d (some t) = none ↔ ∀ q ∈ d, strInCI q.1 t = false) := by
  constructor
  · intro term h
    simp only [select_highest_priority, Option.map_eq_some'] at h
    rcases h with ⟨x, hmin, hfst⟩
    rcases minByPriority_spec _ x hmin with ⟨hmem, hall⟩
    rw [List.mem_filter] at hmem
    refine ⟨x.2, ?_, ?_, ?_⟩
    · rw [← hfst]; exact hmem.1
    · rw [← hfst]; exact hmem.2
    · intro q hq hqm
      exact hall q (List.mem_filter.mpr ⟨hq, hqm⟩)
  · simp only [select_highest_priority, Option.map_eq_none', minByPriority_none,
      List.filter_eq_nil_iff]
    constructor
    · intro h q hq
      exact Bool.not_eq_true _ ▸ (by simpa using h q hq)
    · intro h q hq
      simp [h q hq]

theorem findColIndicesAux_append (l₁ l₂ : List Cell) (i : Nat)
    (acc : Option Nat × Option Nat) :
    findColIndicesAux (l₁ ++ l₂) i acc =
      findColIndicesAux l₂ (i + l₁.length) (findColIndicesAux l₁ i acc) := by
  induction l₁ generalizing i acc with
  | nil => simp [findColIndicesAux]
  | cons c rest ih =>
    simp only [List.cons_append, findColIndicesAux, List.length_cons, List.append_eq]
    rw [ih]
    congr 1
    omega

theorem findColIndicesAux_fst_nomatch (cells : List Cell) (i : Nat)
    (acc : Option Nat × Option Nat) (h : ∀ c ∈ cells, isPartCell c = false) :
    (findColIndicesAux cells i acc).1 = acc.1 := by
  induction cells generalizing i acc with
  | nil => rfl
  | cons c rest ih =>
    have hc : isPartCell c = false := h c (List.mem_cons_self c rest)
    simp only [findColIndicesAux, hc, Bool.false_eq_true, if_false]
    exact ih (i + 1) _ (fun x hx => h x (List.mem_cons_of_mem c hx))

theorem findColIndicesAux_snd_nomatch (cells : List Cell) (i : Nat)
    (acc : Option Nat × Option Nat) (h : ∀ c ∈ cells, isYearCell c = false) :
    (findColIndicesAux cells i acc).2 = acc.2 := by
  induction cells generalizing i acc with
  | nil => rfl
  | cons c rest ih =>
    have hc : isYearCell c = false := h c (List.mem_cons_self c rest)
    simp only [findColIndicesAux, hc, Bool.false_eq_true, if_false]
    exact ih (i + 1) _ (fun x hx => h x (List.mem_cons_of_mem c hx))

/-- The current-quarter index is one past the position of the last
`"Particular"` cell. -/
theorem findColIndices_fst_last (pre post : List Cell) (c : Cell)
    (hc : isPartCell c = true) (hpost : ∀ x ∈ post, isPartCell x = false) :
    (findColIndices (pre ++ c :: post)).1 = some (pre.length + 1) := by
  unfold findColIndices
  rw [findColIndicesAux_append]
  simp only [findColIndicesAux, hc, if_true, Nat.zero_add]
  rw [findColIndicesAux_fst_nomatch post _ _ hpost]

/-- The annual index is the position of the last `"year ended"` cell. -/
theorem findColIndices_snd_last (pre post : List Cell) (c : Cell)
    (hc : isYearCell c = true) (hpost : ∀ x ∈ post, isYearCell x = false) :
    (findColIndices (pre ++ c :: post)).2 = some pre.length := by
  unfold findColIndices
  rw [findColIndicesAux_append]
  simp only [findColIndicesAux, hc, if_true, Nat.zero_add]
  rw [findColIndicesAux_snd_nomatch post _ _ hpost]

/-- Claim C6 (confirmed): (a) for a table whose header row has its unique
truthy cell containing `"Particular"` at index `i = pre.length` and its
unique cell containing `"year ended"` at index `j = pre2.length`, the column
mapping yields current-period index `i + 1` and annual index `j`; (b) if
either marker is absent from the header, `extract_financial_values` returns
the all-unset record rather than guessing a column. -/
theorem claim6_column_mapping :
    (∀ (pre post pre2 post2 : List Cell) (c c2 : Cell),
      isPartCell c = true → (∀ x ∈ pre, isPartCell x = false) →
      (∀ x ∈ post, isPartCell x = false) →
      isYearCell c2 = true → (∀ x ∈ pre2, isYearCell x = false) →
      (∀ x ∈ post2, isYearCell x = false) →
      pre ++ c :: post = pre2 ++ c2 :: post2 →
      findColIndices (pre ++ c :: post) = (some (pre.length + 1), some pre2.length)) ∧
    (∀ (header : Row) (rows : List Row),
      ((∀ x ∈ header, isPartCell x = false) ∨ (∀ x ∈ header, isYearCell x = false)) →
      extract_financial_values (some (.tbl (header :: rows))) = .ok allNone) := by
  constructor
  · intro pre post pre2 post2 c c2 hc _ hpost hc2 _ hpost2 heq
    have h1 := findColIndices_fst_last pre post c hc hpost
    have h2 := findColIndices_snd_last pre2 post2 c2 hc2 hpost2
    rw [← heq] at h2
    exact Prod.ext h1 h2
  · intro header rows h
    have hcols : (findColIndices header).1 = none ∨ (findColIndices header).2 = none := by
      rcases h with h | h
      · exact Or.inl (findColIndicesAux_fst_nomatch header 0 (none, none) h)
      · exact Or.inr (findColIndicesAux_snd_nomatch header 0 (none, none) h)
    have hred : extract_financial_values (some (.tbl (header :: rows))) =
        (match findColIndices header with
          | (some cqi, some ai) => (header :: rows).foldlM (processRow cqi ai) allNone
          | _ => .ok allNone) := rfl
    rcases hfc : findColIndices header with ⟨fst, snd⟩
    rw [hfc] at hcols hred
    rw [hred]
    match fst, snd, hcols with
    | none, _, _ => rfl
    | some _, none, _ => rfl
    | some _, some _, hc => simp at hc

/-- Witness for C6: the header of the worked example of the specification,
`"Particulars"` at index 2 and `"Year Ended 31 Mar 2024"` at index 5, maps to
current-period index 3 and annual index 5; and a header with neither marker
leaves everything unset. -/
theorem claim6_column_mapping_witness :
    findColIndices ([some "No", some "Sr"] ++ (some "Particulars") ::
      ([some "Q3 FY24", some "Q2 FY24", some "Year Ended 31 Mar 2024"] : List Cell)) =
      (some 3, some 5) ∧
    extract_financial_values (some (.tbl ([some "Foo", some "Bar"] ::
      [[some "Total Revenue", some "1"]]))) = .ok allNone := by
  constructor
  · have h := claim6_column_mapping.1 [some "No", some "Sr"]
      [some "Q3 FY24", some "Q2 FY24", some "Year Ended 31 Mar 2024"]
      [some "No", some "Sr", some "Particulars", some "Q3 FY24", some "Q2 FY24"] []
      (some "Particulars") (some "Year Ended 31 Mar 2024")
      (by decide) (by decide) (by decide) (by decide) (by decide) (by decide) (by decide)
    simpa using h
  · exact claim6_column_mapping.2 [some "Foo", some "Bar"] [[some "Total Revenue", some "1"]]
      (Or.inl (by decide))

/-- Witness for C5 at concrete inputs: on the text
`"Consolidated Total Revenue"` the revenue dictionary selects
`"Total Revenue"` (priority 2, the only contained synonym), and on an
unrelated text the operating-profit dictionary selects nothing. -/
theorem claim5_select_spec_witness :
    (∃ p, ("Total Revenue", p) ∈ RT ∧ strInCI "Total Revenue" "Consolidated Total Revenue" = true ∧
      ∀ q ∈ RT, strInCI q.1 "Consolidated Total Revenue" = true → p ≤ q.2) ∧
    (∀ q ∈ OPT, strInCI q.1 "no relevant text" = false) :=
  ⟨(claim5_select_spec RT "Consolidated Total Revenue").1 "Total Revenue" (by decide),
   ((claim5_select_spec OPT "no relevant text").2).mp (by decide)⟩

/-- Witness for C7: table with header `["Particulars", "Q3", "year ended FY24"]`
and single data row `["Total Revenue and Operating Profit", "7", "8"]`, whose
first cell matches both the Revenue and Operating Profit dictionaries: both
current-quarter fields become 7 and both annual fields become 8. -/
theorem claim7_multi_dict_witness :
    ∃ d : FinVals,
      dictGet d.currentQuarter "Revenue" = some (PyVal.vnum 7) ∧
      dictGet d.currentQuarter "Operating Profit" = some (PyVal.vnum 7) ∧
      dictGet d.annualData "Revenue" = some (PyVal.vnum 8) ∧
      dictGet d.annualData "Operating Profit" = some (PyVal.vnum 8) := by
  refine ⟨⟨[("Revenue", PyVal.vnum 7), ("Operating Profit", PyVal.vnum 7),
      ("Net Profit", PyVal.vnone)],
    [("Revenue", PyVal.vnum 8), ("Operating Profit", PyVal.vnum 8),
      ("Net Profit", PyVal.vnone)]⟩, ?_⟩
  have h := claim7_multi_dict
    [some "Particulars", some "Q3", some "year ended FY24"] []
    "Total Revenue and Operating Profit" [some "7", some "8"] 1 2
    ⟨[("Revenue", PyVal.vnum 7), ("Operating Profit", PyVal.vnum 7),
        ("Net Profit", PyVal.vnone)],
      [("Revenue", PyVal.vnum 8), ("Operating Profit", PyVal.vnum 8),
        ("Net Profit", PyVal.vnone)]⟩
    (PyVal.vnum 7) (PyVal.vnum 8)
    (by decide) (by decide) (by decide) (by decide) (by decide) (by decide)
  exact ⟨h.1, h.2.1, h.2.2.1, h.2.2.2.1⟩

/-- Counterexample to C4 as stated: in the table with header
`["Particulars", "Q3", "year ended FY24"]` and the two Revenue-matching rows
`["Total Revenue", "100", "200"]` and `["Revenues", None, "300"]`, the second
row's current-quarter cell is absent, and processing it does NOT leave the
earlier value 100 in place: the final current-quarter Revenue is the unset
value `None` (the absent cell is assigned, erasing the earlier value), while
the annual Revenue is 300. -/
theorem claim4_counterexample :
    ∃ d, extract_financial_values (some (.tbl
      [[some "Particulars", some "Q3", some "year ended FY24"],
       [some "Total Revenue", some "100", some "200"],
       [some "Revenues", none, some "300"]])) = .ok d ∧
      dictGet d.currentQuarter "Revenue" = some PyVal.vnone ∧
      dictGet d.annualData "Revenue" = some (PyVal.vnum 300) :=
  ⟨⟨[("Revenue", PyVal.vnone), ("Operating Profit", PyVal.vnone),
      ("Net Profit", PyVal.vnone)],
    [("Revenue", PyVal.vnum 300), ("Operating Profit", PyVal.vnone),
      ("Net Profit", PyVal.vnone)]⟩, by decide, by decide, by decide⟩

/-- Claim C4 amended: for every matched data row, the row's assignment fully
determines the field — the targeted cell present and parseable stores its
comma-stripped float value, and a targeted cell absent, empty or out of range
stores the unset value `None`, in both cases overwriting whatever an earlier
matching row had stored (last-match-wins is unconditional, not only for
parsed values). -/
theorem claim4_missing_cell (cqi ai : Nat) (acc : FinVals) (s0 : String) (rest : Row)
    (v va : PyVal)
    (hv : parseCell (some s0 :: rest) cqi = .ok v)
    (hva : parseCell (some s0 :: rest) ai = .ok va)
    (hrm : (select_highest_priority RT (some s0)).isSome = true) :
    (∃ d, processRow cqi ai acc (some s0 :: rest) = .ok d ∧
      dictGet d.currentQuarter "Revenue" = some v ∧
      dictGet d.annualData "Revenue" = some va) ∧
    (∀ row : Row, row.length ≤ cqi → parseCell row cqi = .ok PyVal.vnone) ∧
    (∀ (row : Row) (c : Cell), row.get? cqi = some c → cellTruthy c = false →
      parseCell row cqi = .ok PyVal.vnone) ∧
    (∀ (row : Row) (c : Cell) (q : ℚ), row.get? cqi = some c → cellTruthy c = true →
      pyFloat? (removeCommas (cellStr c)) = some q →
      parseCell row cqi = .ok (PyVal.vnum q)) := by
  refine ⟨?_, fun row h => parseCell_out_of_range row cqi h,
    fun row c hget hc => parseCell_falsy row cqi c hget hc,
    fun row c q hget hc hq => parseCell_parses row cqi c q hget hc hq⟩
  refine ⟨_, processRow_eq cqi ai acc s0 rest v va hv hva, ?_, ?_⟩ <;> rw [hrm] <;> dsimp only
  · rw [dictGet_setIf_ne _ _ _ _ _ (by decide), dictGet_setIf_ne _ _ _ _ _ (by decide),
      setIf_true, dictGet_dictSet_self]
  · rw [dictGet_setIf_ne _ _ _ _ _ (by decide), dictGet_setIf_ne _ _ _ _ _ (by decide),
      setIf_true, dictGet_dictSet_self]

/-- Witness for the amended C4: processing the row `["Revenues", None, "300"]`
(current index 1, annual index 2) over an accumulator holding Revenue 100/200
stores `None` / 300, overwriting both; and the three `parseCell` behaviours
at concrete rows. -/
theorem claim4_missing_cell_witness :
    (∃ d, processRow 1 2
        ⟨[("Revenue", PyVal.vnum 100), ("Operating Profit", PyVal.vnone),
          ("Net Profit", PyVal.vnone)],
         [("Revenue", PyVal.vnum 200), ("Operating Profit", PyVal.vnone),
          ("Net Profit", PyVal.vnone)]⟩
        (some "Revenues" :: [none, some "300"]) = .ok d ∧
      dictGet d.currentQuarter "Revenue" = some PyVal.vnone ∧
      dictGet d.annualData "Revenue" = some (PyVal.vnum 300)) ∧
    parseCell [some "Total Revenue"] 1 = .ok PyVal.vnone ∧
    parseCell [some "Total Revenue", none, some "9"] 1 = .ok PyVal.vnone ∧
    parseCell [some "Total Revenue", some "1,234.50"] 1 = .ok (PyVal.vnum (mkRat 2469 2)) := by
  have h := claim4_missing_cell 1 2
    ⟨[("Revenue", PyVal.vnum 100), ("Operating Profit", PyVal.vnone),
      ("Net Profit", PyVal.vnone)],
     [("Revenue", PyVal.vnum 200), ("Operating Profit", PyVal.vnone),
      ("Net Profit", PyVal.vnone)]⟩
    "Revenues" [none, some "300"] PyVal.vnone (PyVal.vnum 300)
    (by decide) (by decide) (by decide)
  exact ⟨h.1, h.2.1 [some "Total Revenue"] (by decide),
    h.2.2.1 [some "Total Revenue", none, some "9"] none (by decide) (by decide),
    h.2.2.2 [some "Total Revenue", some "1,234.50"] (some "1,234.50") (mkRat 2469 2)
      (by decide) (by decide) (by decide)⟩

/-! ## The totality precondition of `extract_financial_values` (claim C10) -/

/-- The targeted cell of a row is harmless: absent, out of range, falsy, or
parseable after comma removal. -/
def cellParses (row : Row) (idx : Nat) : Bool :=
  match row.get? idx with
  | none => true
  | some c => !cellTruthy c || (pyFloat? (removeCommas (cellStr c))).isSome

/-- The row reaches a `float` call: non-empty, truthy first cell, and some
dictionary matches it. -/
def rowMatched (row : Row) : Bool :=
  match row with
  | [] => false
  | none :: _ => false
  | some s0 :: _ =>
    (select_highest_priority RT (some s0)).isSome ||
      ((select_highest_priority OPT (some s0)).isSome ||
        (select_highest_priority NPT (some s0)).isSome)

/-- The totality precondition: whenever the column mapping succeeds, every
matched row has harmless targeted cells. -/
def safeTable (t : Table) : Bool :=
  match t with
  | [] => true
  | header :: _ =>
    match findColIndices header with
    | (some cqi, some ai) =>
      t.all (fun row => !rowMatched row || (cellParses row cqi && cellParses row ai))
    | _ => true

theorem parseCell_ok_of_parses (row : Row) (idx : Nat)
    (h : cellParses row idx = true) : ∃ v, parseCell row idx = .ok v := by
  unfold cellParses at h
  cases hg : row.get? idx with
  | none => exact ⟨.vnone, parseCell_out_of_range row idx (List.get?_eq_none.mp hg)⟩
  | some c =>
    rw [hg] at h
    dsimp only at h
    cases hc : cellTruthy c with
    | false => exact ⟨.vnone, parseCell_falsy row idx c hg hc⟩
    | true =>
      rw [hc] at h
      simp only [Bool.not_true, Bool.false_or] at h
      obtain ⟨q, hq⟩ := Option.isSome_iff_exists.mp h
      exact ⟨.vnum q, parseCell_parses row idx c q hg hc hq⟩

theorem processRow_ok (cqi ai : Nat) (acc : FinVals) (row : Row)
    (h : (!rowMatched row || (cellParses row cqi && cellParses row ai)) = true) :
    ∃ d, processRow cqi ai acc row = .ok d := by
  match row with
  | [] => exact ⟨acc, rfl⟩
  | none :: _ => exact ⟨acc, rfl⟩
  | some s0 :: rest =>
    by_cases hm : rowMatched (some s0 :: rest) = true
    · rw [hm] at h
      simp only [Bool.not_true, Bool.false_or, Bool.and_eq_true] at h
      obtain ⟨v, hv⟩ := parseCell_ok_of_parses _ _ h.1
      obtain ⟨va, hva⟩ := parseCell_ok_of_parses _ _ h.2
      exact ⟨_, processRow_eq cqi ai acc s0 rest v va hv hva⟩
    · have hm' : rowMatched (some s0 :: rest) = false := by
        cases hx : rowMatched (some s0 :: rest)
        · rfl
        · exact absurd hx hm
      unfold rowMatched at hm'
      rw [Bool.or_eq_false_iff, Bool.or_eq_false_iff] at hm'
      obtain ⟨h1, h2, h3⟩ := hm'
      have e1 : select_highest_priority RT (some s0) = none :=
        Option.not_isSome_iff_eq_none.mp (by simp [h1])
      have e2 : select_highest_priority OPT (some s0) = none :=
        Option.not_isSome_iff_eq_none.mp (by simp [h2])
      have e3 : select_highest_priority NPT (some s0) = none :=
        Option.not_isSome_iff_eq_none.mp (by simp [h3])
      exact ⟨acc, by simp only [processRow, e1, e2, e3, applyMatch_none, okBind]⟩

theorem foldlM_processRow_ok (cqi ai : Nat) (rows : List Row) :
    ∀ acc : FinVals,
      (∀ row ∈ rows,
        (!rowMatched row || (cellParses row cqi && cellParses row ai)) = true) →
      ∃ fv, rows.foldlM (processRow cqi ai) acc = .ok fv := by
  induction rows with
  | nil => exact fun acc _ => ⟨acc, rfl⟩
  | cons r rs ih =>
    intro acc h
    obtain ⟨d, hd⟩ := processRow_ok cqi ai acc r (h r (List.mem_cons_self r rs))
    obtain ⟨fv, hfv⟩ := ih d (fun x hx => h x (List.mem_cons_of_mem r hx))
    exact ⟨fv, by rw [List.foldlM_cons, hd, okBind, hfv]⟩

/-- Claim C10 (confirmed): `extract_financial_values` is total under the
precondition that every matched row's targeted in-range cells are either
falsy or parse as floats after comma removal (`safeTable`); and on a table
violating it — a matched row whose current-quarter cell is the placeholder
dash — the `float` conversion fails with an uncaught `ValueError` instead of
leaving the field unset. -/
theorem claim10_totality_gap :
    (∀ t : Table, safeTable t = true →
      ∃ fv, extract_financial_values (some (.tbl t)) = .ok fv) ∧
    extract_financial_values (some (.tbl
      [[some "Particulars", some "Q3", some "year ended FY24"],
       [some "Total Revenue", some "—", some "5"]])) =
      .error "ValueError: could not convert string to float" := by
  constructor
  · intro t hsafe
    match t with
    | [] => exact ⟨allNone, rfl⟩
    | header :: rows =>
      have hred : extract_financial_values (some (.tbl (header :: rows))) =
          (match findColIndices header with
            | (some cqi, some ai) => (header :: rows).foldlM (processRow cqi ai) allNone
            | _ => .ok allNone) := rfl
      unfold safeTable at hsafe
      dsimp only at hsafe
      rcases hfc : findColIndices header with ⟨fst, snd⟩
      rw [hfc] at hsafe hred
      cases fst with
      | none => exact ⟨allNone, by rw [hred]⟩
      | some cqi =>
        cases snd with
        | none => exact ⟨allNone, by rw [hred]⟩
        | some ai =>
          rw [hred]
          exact foldlM_processRow_ok cqi ai (header :: rows) allNone
            (List.all_eq_true.mp hsafe)
  · decide

/-- Witness for C10: a concrete safe table (numeric cells with thousands
separators) extracts successfully, while the dash-cell table raises. -/
theorem claim10_totality_gap_witness :
    (∃ fv, extract_financial_values (some (.tbl
      [[some "Particulars", some "Q3", some "year ended FY24"],
       [some "Total Revenue", some "1,234.50", some "5,678.90"]])) = .ok fv) ∧
    extract_financial_values (some (.tbl
      [[some "Particulars", some "Q3", some "year ended FY24"],
       [some "Total Revenue", some "—", some "5"]])) =
      .error "ValueError: could not convert string to float" :=
  ⟨claim10_totality_gap.1 _ (by decide), claim10_totality_gap.2⟩

/-! ## Merge-step lemmas and the orchestrator claims (C1, C2, C9, C3) -/

theorem dictGet_dictUpdate_not_mem (e : PyDict) (k : String) :
    ∀ d, dictGet e k = none → dictGet (dictUpdate d e) k = dictGet d k := by
  induction e with
  | nil => intro d _; rfl
  | cons p rest ih =>
    intro d hk
    have hp : (p.1 == k) = false := by
      cases hpk : (p.1 == k)
      · rfl
      · exfalso
        unfold dictGet at hk
        rw [@List.find?_cons_of_pos _ (fun q => q.1 == k) p _ hpk] at hk
        simp at hk
    have hrest : dictGet rest k = none := by
      unfold dictGet at hk ⊢
      rwa [@List.find?_cons_of_neg _ (fun q => q.1 == k) p _ (by simp [hp])] at hk
    show dictGet (dictUpdate (dictSet d p.1 p.2) rest) k = dictGet d k
    rw [ih (dictSet d p.1 p.2) hrest,
      dictGet_dictSet_ne _ _ _ _ (fun e => (beq_eq_false_iff_ne.mp hp) e.symm)]

theorem dictGet_dictUpdate_mem (e : PyDict) (k : String) (v : PyVal) :
    ∀ d, (e.map Prod.fst).Nodup → dictGet e k = some v →
      dictGet (dictUpdate d e) k = some v := by
  induction e with
  | nil => intro d _ hk; simp [dictGet] at hk
  | cons p rest ih =>
    intro d hnd hk
    rw [List.map_cons, List.nodup_cons] at hnd
    obtain ⟨hnotin, hndrest⟩ := hnd
    by_cases hpk : (p.1 == k) = true
    · have hkey : p.1 = k := by simpa using hpk
      have hv : p.2 = v := by
        unfold dictGet at hk
        rw [@List.find?_cons_of_pos _ (fun q => q.1 == k) p _ hpk] at hk
        simpa using hk
      have hrest : dictGet rest k = none := by
        unfold dictGet
        rw [List.find?_eq_none.mpr ?_]
        · rfl
        · intro q hq hqk
          apply hnotin
          rw [hkey, ← show q.1 = k by simpa using hqk]
          exact List.mem_map_of_mem Prod.fst hq
      show dictGet (dictUpdate (dictSet d p.1 p.2) rest) k = some v
      rw [dictGet_dictUpdate_not_mem rest k _ hrest, hkey, hv, dictGet_dictSet_self]
    · have hrest : dictGet rest k = some v := by
        unfold dictGet at hk ⊢
        rwa [@List.find?_cons_of_neg _ (fun q => q.1 == k) p _ hpk] at hk
      exact ih (dictSet d p.1 p.2) hndrest hrest

/-- The C1 counterexample document: the only matching data row has an empty
current-quarter cell, so the local parse leaves the current quarter unset
while finding annual Revenue 500. -/
def c1doc : Doc :=
  ⟨[⟨"Results 2024",
     [[[some "Particulars", some "Q3", some "year ended FY24"],
       [some "Total Revenue", none, some "500"]]],
     ""⟩]⟩

/-- The C1 counterexample LLM response: Revenue 999 in both periods and an
Operating Profit of 50 for the current quarter; no company name key. -/
def c1ai : AiData :=
  ⟨[("Revenue", PyVal.vnum 999), ("Operating Profit", PyVal.vnum 50)],
   [("Revenue", PyVal.vnum 999)], none⟩

/-- Counterexample to C1 as stated: on `c1doc` the local table parse populates
annual Revenue with 500, the fallback is invoked (the current quarter is
empty), and the merge OVERWRITES the locally populated annual Revenue with
the LLM value 999 — `dict.update` does not restrict itself to unset fields. -/
theorem claim1_counterexample :
    ∃ fv fd,
      extract_financial_values (extract_table_or_text c1doc) = .ok fv ∧
      dictGet fv.annualData "Revenue" = some (PyVal.vnum 500) ∧
      extract_fin_data c1doc (some c1ai) = .ok (.ok fd) ∧
      dictGet fd.annualData "Revenue" = some (PyVal.vnum 999) := by
  refine ⟨⟨[("Revenue", PyVal.vnone), ("Operating Profit", PyVal.vnone),
      ("Net Profit", PyVal.vnone)],
    [("Revenue", PyVal.vnum 500), ("Operating Profit", PyVal.vnone),
      ("Net Profit", PyVal.vnone)]⟩,
    ⟨[("Revenue", PyVal.vnum 999), ("Operating Profit", PyVal.vnum 50),
      ("Net Profit", PyVal.vnone), ("Unit", PyVal.vstr "Unknown")],
     [("Revenue", PyVal.vnum 999), ("Operating Profit", PyVal.vnone),
      ("Net Profit", PyVal.vnone), ("Year", PyVal.vstr "2024"),
      ("Unit", PyVal.vstr "Unknown")],
     PyVal.vstr "Unknown Company"⟩, by decide, by decide, by decide, by decide⟩

/-- Claim C1 amended: when the fallback is invoked, the merge has
`dict.update` semantics — every key present in the LLM sub-objects (with the
JSON object's keys unique) overwrites the local entry, locally populated
Annual Data values included; keys absent from the LLM result keep their
local values; the company name is replaced exactly when the LLM response
provided the key; and an absent/unparseable LLM response changes nothing.
(The trigger condition guarantees every current-quarter value is falsy at
merge time, so no nonzero current-quarter value can be lost.) -/
theorem claim1_merge_semantics (fv : FinVals) (cn : PyVal) (a : AiData)
    (htrig : geminiTriggered fv = true) :
    (∀ k v, (a.annualData.map Prod.fst).Nodup → dictGet a.annualData k = some v →
      dictGet (mergeAi fv cn (some a)).2.1 k = some v) ∧
    (∀ k, dictGet a.annualData k = none →
      dictGet (mergeAi fv cn (some a)).2.1 k = dictGet fv.annualData k) ∧
    (∀ k v, (a.currentQuarter.map Prod.fst).Nodup → dictGet a.currentQuarter k = some v →
      dictGet (mergeAi fv cn (some a)).1 k = some v) ∧
    (∀ k, dictGet a.currentQuarter k = none →
      dictGet (mergeAi fv cn (some a)).1 k = dictGet fv.currentQuarter k) ∧
    (mergeAi fv cn (some a)).2.2 = a.companyName.getD cn ∧
    mergeAi fv cn none = (fv.currentQuarter, fv.annualData, cn) := by
  have hm : mergeAi fv cn (some a) =
      (dictUpdate fv.currentQuarter a.currentQuarter,
       dictUpdate fv.annualData a.annualData, a.companyName.getD cn) := by
    unfold mergeAi
    rw [htrig]
    rfl
  have hn : mergeAi fv cn none = (fv.currentQuarter, fv.annualData, cn) := by
    unfold mergeAi
    rw [htrig]
    rfl
  rw [hm]
  exact ⟨fun k v hnd hk => dictGet_dictUpdate_mem _ k v _ hnd hk,
    fun k hk => dictGet_dictUpdate_not_mem _ k _ hk,
    fun k v hnd hk => dictGet_dictUpdate_mem _ k v _ hnd hk,
    fun k hk => dictGet_dictUpdate_not_mem _ k _ hk,
    rfl, hn⟩

/-- Witness for the amended C1, at the `c1doc` local result and the `c1ai`
response: the LLM-provided annual Revenue key overwrites the local 500 with
999, the Net Profit key is absent from the response and keeps its local
value, and the company name stays local since the response has no
Company Name key. -/
theorem claim1_merge_semantics_witness :
    dictGet (mergeAi
      ⟨[("Revenue", PyVal.vnone), ("Operating Profit", PyVal.vnone),
        ("Net Profit", PyVal.vnone)],
       [("Revenue", PyVal.vnum 500), ("Operating Profit", PyVal.vnone),
        ("Net Profit", PyVal.vnone)]⟩
      (PyVal.vstr "Unknown Company") (some c1ai)).2.1 "Revenue" =
        some (PyVal.vnum 999) ∧
    dictGet (mergeAi
      ⟨[("Revenue", PyVal.vnone), ("Operating Profit", PyVal.vnone),
        ("Net Profit", PyVal.vnone)],
       [("Revenue", PyVal.vnum 500), ("Operating Profit", PyVal.vnone),
        ("Net Profit", PyVal.vnone)]⟩
      (PyVal.vstr "Unknown Company") (some c1ai)).2.1 "Net Profit" =
        dictGet [("Revenue", PyVal.vnum 500), ("Operating Profit", PyVal.vnone),
          ("Net Profit", PyVal.vnone)] "Net Profit" ∧
    (mergeAi
      ⟨[("Revenue", PyVal.vnone), ("Operating Profit", PyVal.vnone),
        ("Net Profit", PyVal.vnone)],
       [("Revenue", PyVal.vnum 500), ("Operating Profit", PyVal.vnone),
        ("Net Profit", PyVal.vnone)]⟩
      (PyVal.vstr "Unknown Company") (some c1ai)).2.2 =
        c1ai.companyName.getD (PyVal.vstr "Unknown Company") := by
  have h := claim1_merge_semantics
    ⟨[("Revenue", PyVal.vnone), ("Operating Profit", PyVal.vnone),
      ("Net Profit", PyVal.vnone)],
     [("Revenue", PyVal.vnum 500), ("Operating Profit", PyVal.vnone),
      ("Net Profit", PyVal.vnone)]⟩
    (PyVal.vstr "Unknown Company") c1ai (by decide)
  exact ⟨h.1 "Revenue" (PyVal.vnum 999) (by decide) (by decide),
    h.2.1 "Net Profit" (by decide), h.2.2.2.2.1⟩

/-- Counterexample to C2 as stated: a table whose Revenue row holds "0" in
both targeted cells populates the current-quarter Revenue with the float 0.0,
yet the fallback trigger still fires — the check is Python truthiness, not
populated-ness, and 0.0 is falsy. -/
theorem claim2_counterexample :
    ∃ fv, extract_financial_values (some (.tbl
        [[some "Particulars", some "Q3", some "year ended FY24"],
         [some "Total Revenue", some "0", some "0"]])) = .ok fv ∧
      dictGet fv.currentQuarter "Revenue" = some (PyVal.vnum 0) ∧
      geminiTriggered fv = true :=
  ⟨⟨[("Revenue", PyVal.vnum 0), ("Operating Profit", PyVal.vnone),
      ("Net Profit", PyVal.vnone)],
    [("Revenue", PyVal.vnum 0), ("Operating Profit", PyVal.vnone),
      ("Net Profit", PyVal.vnone)]⟩, by decide, by decide, by decide⟩

/-- Claim C2 amended: the LLM fallback is invoked exactly when every
current-quarter value is falsy — unset (`None`) or zero; when some value is
truthy the merge step leaves the local results and company name untouched.
In particular, for a clean table whose local parse produced at least one
nonzero financial value the fallback is never invoked, but a field populated
with 0.0 does not prevent it. -/
theorem claim2_trigger (fv : FinVals) (cn : PyVal) (ai : Option AiData) :
    (geminiTriggered fv = true ↔ ∀ v ∈ dictValues fv.currentQuarter, v.truthy = false) ∧
    (geminiTriggered fv = false →
      mergeAi fv cn ai = (fv.currentQuarter, fv.annualData, cn)) := by
  constructor
  · unfold geminiTriggered pyAny
    rw [Bool.not_eq_true']
    constructor
    · intro h v hv
      simpa using List.any_eq_false.mp h v hv
    · intro h
      exact List.any_eq_false.mpr (fun v hv => by simp [h v hv])
  · intro h
    unfold mergeAi
    rw [h]
    simp

/-- Witness for the amended C2: a record with current-quarter Revenue 500
does not trigger the fallback and passes through the merge unchanged, and
the all-unset record triggers it. -/
theorem claim2_trigger_witness :
    mergeAi ⟨[("Revenue", PyVal.vnum 500), ("Operating Profit", PyVal.vnone),
        ("Net Profit", PyVal.vnone)], emptyTriple⟩
      (PyVal.vstr "X") (some c1ai) =
      ([("Revenue", PyVal.vnum 500), ("Operating Profit", PyVal.vnone),
        ("Net Profit", PyVal.vnone)], emptyTriple, PyVal.vstr "X") ∧
    (∀ v ∈ dictValues (allNone).currentQuarter, PyVal.truthy v = false) := by
  refine ⟨(claim2_trigger ⟨[("Revenue", PyVal.vnum 500), ("Operating Profit", PyVal.vnone),
        ("Net Profit", PyVal.vnone)], emptyTriple⟩
      (PyVal.vstr "X") (some c1ai)).2 (by decide), ?_⟩
  exact (claim2_trigger allNone (PyVal.vstr "X") none).1.mp (by decide)

/-- The C9 counterexample document: the revenue row holds zeros, so both
period dicts are populated with 0.0 values. -/
def c9doc : Doc :=
  ⟨[⟨"Results 2024",
     [[[some "Particulars", some "Q3", some "year ended FY24"],
       [some "Total Revenue", some "0", some "0"]]],
     ""⟩]⟩

/-- Counterexample to C9 as stated: on `c9doc` (no LLM result) both period
Revenue fields are populated — with the value 0.0 — yet `extract_fin_data`
returns the 404 error object instead of the data record: the final check
tests truthiness, and zero-valued fields count as no data. -/
theorem claim9_counterexample :
    ∃ fv, extract_financial_values (extract_table_or_text c9doc) = .ok fv ∧
      dictGet fv.currentQuarter "Revenue" = some (PyVal.vnum 0) ∧
      dictGet fv.annualData "Revenue" = some (PyVal.vnum 0) ∧
      extract_fin_data c9doc none =
        .ok (.err 404 "No financial data found in the document.") :=
  ⟨⟨[("Revenue", PyVal.vnum 0), ("Operating Profit", PyVal.vnone),
      ("Net Profit", PyVal.vnone)],
    [("Revenue", PyVal.vnum 0), ("Operating Profit", PyVal.vnone),
      ("Net Profit", PyVal.vnone)]⟩, by decide, by decide, by decide, by decide⟩

theorem forall_falsy_iff_any_false (l : List PyVal) :
    (∀ v ∈ l, v.truthy = false) ↔ l.any PyVal.truthy = false :=
  ⟨fun h => List.any_eq_false.mpr (fun v hv => by simp [h v hv]),
   fun h v hv => by simpa using List.any_eq_false.mp h v hv⟩

/-- Claim C9 amended: after a successful local extraction (non-blank text, no
`ValueError`), the 404 error object is returned exactly when every value of
both merged period dicts is falsy — so populated-but-zero financial fields
count as "no data", and truthy non-financial entries merged in from the LLM
(such as a Year or Unit string) count as data; in every other case the
normalized record is returned, with the Year, the Unit entries and the
company name filled in.  (A document whose extracted text is blank returns
the same 404 object before any extraction is attempted.) -/
theorem claim9_final_check (doc : Doc) (ai : Option AiData) (fv : FinVals)
    (m : PyDict × PyDict × PyVal)
    (htext : pyStrip (extractedTextOf doc) ≠ "")
    (hfv : extract_financial_values (extract_table_or_text doc) = .ok fv)
    (hm : m = mergeAi fv (.vstr (extract_company_name (extractedTextOf doc))) ai) :
    (extract_fin_data doc ai = .ok (.err 404 noDataMsg) ↔
      (∀ v ∈ dictValues m.1, v.truthy = false) ∧
      (∀ v ∈ dictValues m.2.1, v.truthy = false)) ∧
    (∀ fd, extract_fin_data doc ai = .ok (.ok fd) →
      fd.currentQuarter =
        dictSet m.1 "Unit" (.vstr (detect_fin_unit (extractedTextOf doc))) ∧
      fd.annualData =
        dictSet (dictSet m.2.1 "Year" (.vstr (yearOf (extractedTextOf doc))))
          "Unit" (.vstr (detect_fin_unit (extractedTextOf doc))) ∧
      fd.companyName = m.2.2) ∧
    (extract_fin_data doc ai = .ok (.err 404 noDataMsg) ∨
      ∃ fd, extract_fin_data doc ai = .ok (.ok fd)) := by
  have h1 : (pyStrip (extractedTextOf doc) == "") = false := beq_eq_false_iff_ne.mpr htext
  have hres : extract_fin_data doc ai =
      (if (!pyAny (dictValues m.1) && !pyAny (dictValues m.2.1)) = true
        then .ok (.err 404 noDataMsg)
        else .ok (.ok ⟨dictSet m.1 "Unit" (.vstr (detect_fin_unit (extractedTextOf doc))),
          dictSet (dictSet m.2.1 "Year" (.vstr (yearOf (extractedTextOf doc))))
            "Unit" (.vstr (detect_fin_unit (extractedTextOf doc))), m.2.2⟩)) := by
    simp only [extract_fin_data, h1, Bool.false_eq_true, if_false, hfv, ← hm]
  by_cases hc : (!pyAny (dictValues m.1) && !pyAny (dictValues m.2.1)) = true
  · have hprops : (∀ v ∈ dictValues m.1, v.truthy = false) ∧
        (∀ v ∈ dictValues m.2.1, v.truthy = false) := by
      rw [Bool.and_eq_true, Bool.not_eq_true', Bool.not_eq_true'] at hc
      exact ⟨(forall_falsy_iff_any_false _).mpr hc.1,
        (forall_falsy_iff_any_false _).mpr hc.2⟩
    rw [hres, if_pos hc]
    exact ⟨⟨fun _ => hprops, fun _ => rfl⟩,
      fun fd h => FinResult.noConfusion (Except.ok.inj h),
      Or.inl rfl⟩
  · rw [hres, if_neg hc]
    refine ⟨⟨fun h => absurd (Except.ok.inj h) (fun hh => FinResult.noConfusion hh),
      fun hprops => absurd ?_ hc⟩, fun fd h => ?_, Or.inr ⟨_, rfl⟩⟩
    · rw [Bool.and_eq_true, Bool.not_eq_true', Bool.not_eq_true']
      exact ⟨(forall_falsy_iff_any_false _).mp hprops.1,
        (forall_falsy_iff_any_false _).mp hprops.2⟩
    · have hfd := FinResult.ok.inj (Except.ok.inj h)
      rw [← hfd]
      exact ⟨rfl, rfl, rfl⟩

/-- Witness for the amended C9, on a document with a nonzero revenue row and
no LLM response: the extraction returns the record whose dicts are the local
ones with Year and Unit added, and on the zero-valued `c9doc` the 404
condition of the amended claim holds. -/
theorem claim9_final_check_witness :
    (∃ fd, extract_fin_data
      ⟨[⟨"Results 2024",
         [[[some "Particulars", some "Q3", some "year ended FY24"],
           [some "Total Revenue", some "7", some "8"]]],
         ""⟩]⟩ none = .ok (.ok fd)) ∧
    extract_fin_data c9doc none = .ok (.err 404 noDataMsg) := by
  constructor
  · rcases (claim9_final_check
      ⟨[⟨"Results 2024",
         [[[some "Particulars", some "Q3", some "year ended FY24"],
           [some "Total Revenue", some "7", some "8"]]],
         ""⟩]⟩ none
      ⟨[("Revenue", PyVal.vnum 7), ("Operating Profit", PyVal.vnone),
        ("Net Profit", PyVal.vnone)],
       [("Revenue", PyVal.vnum 8), ("Operating Profit", PyVal.vnone),
        ("Net Profit", PyVal.vnone)]⟩ _
      (by decide) (by decide) rfl).2.2 with h | h
    · exact absurd h (by decide)
    · exact h
  · exact ((claim9_final_check c9doc none
      ⟨[("Revenue", PyVal.vnum 0), ("Operating Profit", PyVal.vnone),
        ("Net Profit", PyVal.vnone)],
       [("Revenue", PyVal.vnum 0), ("Operating Profit", PyVal.vnone),
        ("Net Profit", PyVal.vnone)]⟩ _
      (by decide) (by decide) rfl).1).mpr ⟨by decide, by decide⟩

/-- Claim C3 evaluation (the code contradicts the claim): a two-page document
whose first page has no table and whose second page carries a table with a
`"Particulars"` header cell.  The claim says the table is found and returned;
the code returns the OCR text of page 1, because every branch of the page
loop returns during its first iteration and page 2 is never examined (the
final `return None` of line 77 is reachable only for an empty PDF). -/
theorem claim3_first_page_only :
    extract_table_or_text
      ⟨[⟨"", [], "OCR PAGE ONE"⟩,
        ⟨"", [[[some "Particulars", some "year ended", some "Q"],
               [some "Total Revenue", some "1", some "2"]]], ""⟩]⟩ =
      some (.txt "OCR PAGE ONE") ∧
    (⟨[⟨"", [], "OCR PAGE ONE"⟩,
        ⟨"", [[[some "Particulars", some "year ended", some "Q"],
               [some "Total Revenue", some "1", some "2"]]], ""⟩]⟩ : Doc).pages.any
      (fun p => p.tables.any tableMatches) = true := by
  exact ⟨by decide, by decide⟩

/-! ## Date-sorting lemmas and the period-resolution claim (C8) -/

theorem dateLe_refl (a : Date) : dateLe a a = true := by
  simp [dateLe]

theorem dateLe_total (a b : Date) : dateLe a b = true ∨ dateLe b a = true := by
  simp only [dateLe, decide_eq_true_eq]
  omega

theorem dateLe_trans (a b c : Date) (h1 : dateLe a b = true) (h2 : dateLe b c = true) :
    dateLe a c = true := by
  simp only [dateLe, decide_eq_true_eq] at h1 h2 ⊢
  omega

theorem mem_insertDesc (a x : Date) (l : List Date) :
    a ∈ insertDesc x l ↔ a = x ∨ a ∈ l := by
  induction l with
  | nil => simp [insertDesc]
  | cons y ys ih =>
    unfold insertDesc
    by_cases hc : (!dateLe x y) = true
    · rw [if_pos hc]
      simp [List.mem_cons]
    · rw [if_neg hc]
      rw [List.mem_cons, ih, List.mem_cons]
      tauto

theorem length_insertDesc (x : Date) (l : List Date) :
    (insertDesc x l).length = l.length + 1 := by
  induction l with
  | nil => rfl
  | cons y ys ih =>
    unfold insertDesc
    by_cases hc : (!dateLe x y) = true
    · rw [if_pos hc]
      simp
    · rw [if_neg hc]
      simp [ih]

theorem pairwise_insertDesc (x : Date) (l : List Date)
    (h : l.Pairwise (fun p q => dateLe q p = true)) :
    (insertDesc x l).Pairwise (fun p q => dateLe q p = true) := by
  induction l with
  | nil => simp [insertDesc]
  | cons y ys ih =>
    rw [List.pairwise_cons] at h
    obtain ⟨hy, hys⟩ := h
    unfold insertDesc
    cases hc : dateLe x y with
    | false =>
      rw [if_pos (by simp [hc])]
      have hyx : dateLe y x = true := (dateLe_total x y).resolve_left (by simp [hc])
      rw [List.pairwise_cons]
      refine ⟨?_, List.pairwise_cons.mpr ⟨hy, hys⟩⟩
      intro z hz
      rcases List.mem_cons.mp hz with rfl | hz'
      · exact hyx
      · exact dateLe_trans z y x (hy z hz') hyx
    | true =>
      rw [if_neg (by simp [hc])]
      rw [List.pairwise_cons]
      refine ⟨?_, ih hys⟩
      intro z hz
      rcases (mem_insertDesc z x ys).mp hz with rfl | hz'
      · exact hc
      · exact hy z hz'

theorem mem_sortAux (l : List Date) :
    ∀ (acc : List Date) (a : Date),
      a ∈ l.foldl (fun acc x => insertDesc x acc) acc ↔ a ∈ acc ∨ a ∈ l := by
  induction l with
  | nil => simp
  | cons x xs ih =>
    intro acc a
    rw [List.foldl_cons, ih (insertDesc x acc) a, mem_insertDesc, List.mem_cons]
    tauto

theorem length_sortAux (l : List Date) :
    ∀ acc : List Date,
      (l.foldl (fun acc x => insertDesc x acc) acc).length = acc.length + l.length := by
  induction l with
  | nil => simp
  | cons x xs ih =>
    intro acc
    rw [List.foldl_cons, ih (insertDesc x acc), length_insertDesc]
    simp only [List.length_cons]
    omega

theorem pairwise_sortAux (l : List Date) :
    ∀ acc : List Date, acc.Pairwise (fun p q => dateLe q p = true) →
      (l.foldl (fun acc x => insertDesc x acc) acc).Pairwise
        (fun p q => dateLe q p = true) := by
  induction l with
  | nil => exact fun acc h => h
  | cons x xs ih =>
    intro acc h
    rw [List.foldl_cons]
    exact ih (insertDesc x acc) (pairwise_insertDesc x acc h)

theorem mem_sortDescDates (l : List Date) (a : Date) :
    a ∈ sortDescDates l ↔ a ∈ l := by
  unfold sortDescDates
  rw [mem_sortAux l [] a]
  simp

theorem length_sortDescDates (l : List Date) :
    (sortDescDates l).length = l.length := by
  unfold sortDescDates
  rw [length_sortAux l []]
  simp

theorem pairwise_sortDescDates (l : List Date) :
    (sortDescDates l).Pairwise (fun p q => dateLe q p = true) :=
  pairwise_sortAux l [] (List.Pairwise.nil)

/-- The head of the descending sort dominates every list element. -/
theorem sortDesc_head_max (l : List Date) (a : Date) (tail : List Date)
    (h : sortDescDates l = a :: tail) : ∀ d ∈ l, dateLe d a = true := by
  intro d hd
  have hmem : d ∈ a :: tail := by
    rw [← h]
    exact (mem_sortDescDates l d).mpr hd
  have hpw := pairwise_sortDescDates l
  rw [h, List.pairwise_cons] at hpw
  rcases List.mem_cons.mp hmem with rfl | hmem'
  · exact dateLe_refl d
  · exact hpw.1 d hmem'

theorem extract_dates_eq (text : String) :
    extract_dates_from_text text =
      (match sortDescDates (parsedDates text) with
        | [] => (none, none)
        | [a] => (some (quarterLabel a), none)
        | a :: b :: _ => (some (quarterLabel a), some (quarterLabel b))) := rfl

/-- Claim C8 (confirmed): `extract_dates_from_text` parses the date-pattern
substrings, sorts the parsed dates descending, and labels the maximum date
as the latest period (`Q((month-1) div 3 + 1) year`) and the element at
index 1 of the sorted list — duplicates retained, the sorted list has the
same length as the parsed one — as the previous period; zero parsable dates
give `(absent, absent)` and exactly one leaves the previous period absent. -/
theorem claim8_period_resolution (text : String) :
    (parsedDates text = [] → extract_dates_from_text text = (none, none)) ∧
    (parsedDates text ≠ [] → ∃ m, m ∈ parsedDates text ∧
      (∀ d ∈ parsedDates text, dateLe d m = true) ∧
      (extract_dates_from_text text).1 = some (quarterLabel m)) ∧
    ((parsedDates text).length = 1 → (extract_dates_from_text text).2 = none) ∧
    (2 ≤ (parsedDates text).length →
      (extract_dates_from_text text).2 =
        ((sortDescDates (parsedDates text)).get? 1).map quarterLabel) ∧
    (sortDescDates (parsedDates text)).length = (parsedDates text).length := by
  refine ⟨?_, ?_, ?_, ?_, length_sortDescDates _⟩
  · intro h
    rw [extract_dates_eq, show sortDescDates (parsedDates text) = [] by rw [h]; rfl]
  · intro h
    cases hs : sortDescDates (parsedDates text) with
    | nil =>
      exfalso
      apply h
      have := length_sortDescDates (parsedDates text)
      rw [hs] at this
      exact List.length_eq_zero.mp this.symm
    | cons a tail =>
      refine ⟨a, (mem_sortDescDates _ a).mp (by rw [hs]; exact List.mem_cons_self a tail),
        sortDesc_head_max _ a tail hs, ?_⟩
      rw [extract_dates_eq, hs]
      cases tail <;> rfl
  · intro h
    have hlen : (sortDescDates (parsedDates text)).length = 1 := by
      rw [length_sortDescDates, h]
    cases hs : sortDescDates (parsedDates text) with
    | nil => rw [hs] at hlen; simp at hlen
    | cons a tail =>
      rw [hs] at hlen
      simp only [List.length_cons, Nat.add_eq, Nat.add_left_eq_self] at hlen
      have : tail = [] := List.length_eq_zero.mp (by omega)
      subst this
      rw [extract_dates_eq, hs]
  · intro h
    have hlen : 2 ≤ (sortDescDates (parsedDates text)).length := by
      rw [length_sortDescDates]; exact h
    cases hs : sortDescDates (parsedDates text) with
    | nil => rw [hs] at hlen; simp at hlen
    | cons a tail =>
      cases tail with
      | nil => rw [hs] at hlen; simp at hlen
      | cons b rest =>
        rw [extract_dates_eq, hs]
        rfl

/-- Witness for C8 on the specification's worked example: a text containing
exactly the dates 15-03-2024 and 10-12-2023 resolves to latest period
`Q1 2024` (15 March 2024, the maximum) and previous period `Q4 2023`. -/
theorem claim8_period_resolution_witness :
    extract_dates_from_text "quarter ended 15-03-2024 and prior 10-12-2023" =
      (some "Q1 2024", some "Q4 2023") ∧
    (∃ m, m ∈ parsedDates "quarter ended 15-03-2024 and prior 10-12-2023" ∧
      (∀ d ∈ parsedDates "quarter ended 15-03-2024 and prior 10-12-2023",
        dateLe d m = true) ∧
      (extract_dates_from_text "quarter ended 15-03-2024 and prior 10-12-2023").1 =
        some (quarterLabel m)) ∧
    (extract_dates_from_text "quarter ended 15-03-2024 and prior 10-12-2023").2 =
      ((sortDescDates (parsedDates "quarter ended 15-03-2024 and prior 10-12-2023")).get? 1).map
        quarterLabel := by
  refine ⟨by decide, ?_, ?_⟩
  · exact (claim8_period_resolution "quarter ended 15-03-2024 and prior 10-12-2023").2.1
      (by decide)
  · exact (claim8_period_resolution "quarter ended 15-03-2024 and prior 10-12-2023").2.2.2.1
      (by decide)

end Mined
